import Mathlib

/-!
Verification of the FocusMate text-annotation engine.

The definitions below are a shallow embedding of the JavaScript source:
  * `src/unnamed/part_000`  — the main App component (live preview,
    `processedSampleText`, `processChars`, `toggleList`).
  * `src/source/pop_window.jsx` — the extension popup variant of the same
    component (its `processChars` accesses `groups[key].includes` without
    optional chaining).
  * `src/source/content.js` — the content script (`applyGlobalStyles`,
    `processPageText`).

JS strings are modelled as `List Char`, JS objects used as string-keyed
maps as association lists `List (String × _)` in insertion order, and JS
numbers used for spacing/size preferences as `ℚ`.
-/

namespace FocusMate

/-! ## Text segmentation

`originalText.split(/(\s+)/)` (content.js line 114, part_000 line 143)
splits a string into maximal whitespace runs and maximal non-whitespace
runs; because the separator is a capture group, the whitespace runs are
kept in the output.  `splitRuns p` performs that grouping for a character
class `p`; JS `split` may additionally emit empty-string segments at the
boundaries, which are identities for concatenation and carry no
characters, so they are not modelled. -/
def splitRuns (p : Char → Bool) : List Char → List (List Char)
  | [] => []
  | [c] => [[c]]
  | c :: d :: cs =>
    match splitRuns p (d :: cs) with
    | [] => [[c]]
    | r :: rs => if p c = p d then (c :: r) :: rs else [c] :: r :: rs

/-- The character class of the JS `\s` escape, restricted to the code
points that occur in practice: space, tab, line feed, carriage return,
vertical tab, form feed, no-break space. -/
def isWhitespaceJS (c : Char) : Bool :=
  c = ' ' || c = '\t' || c = '\n' || c = '\r' ||
  c = Char.ofNat 11 || c = Char.ofNat 12 || c = Char.ofNat 160

lemma splitRuns_ne_nil (p : Char → Bool) (c : Char) (cs : List Char) :
    splitRuns p (c :: cs) ≠ [] := by
  cases cs with
  | nil => simp [splitRuns]
  | cons d ds =>
    rw [splitRuns]
    cases h : splitRuns p (d :: ds) with
    | nil => simp
    | cons r rs =>
      by_cases hp : p c = p d <;> simp [hp]

lemma flatten_splitRuns (p : Char → Bool) : ∀ l : List Char, (splitRuns p l).flatten = l
  | [] => by simp [splitRuns]
  | [c] => by simp [splitRuns]
  | c :: d :: cs => by
    rw [splitRuns]
    cases h : splitRuns p (d :: cs) with
    | nil => exact absurd h (splitRuns_ne_nil p d cs)
    | cons r rs =>
      have ih : (splitRuns p (d :: cs)).flatten = d :: cs := flatten_splitRuns p (d :: cs)
      rw [h] at ih
      by_cases hp : p c = p d
      · simpa [hp] using congrArg (c :: ·) ih
      · simpa [hp] using congrArg (c :: ·) ih

/-- C2: Lossless segmentation — splitting a string on `/(\s+)/` with the
separator captured and concatenating the resulting segments reproduces
the input exactly: no character is added, dropped or normalized. -/
theorem c2_lossless_segmentation (s : List Char) :
    (splitRuns isWhitespaceJS s).flatten = s :=
  flatten_splitRuns isWhitespaceJS s

/-! ## Character classification

`processChars` in part_000 (lines 146–171) assigns each character a
classification: the first group of `prefs.active_letter_groups` whose
member list contains the lower-cased character wins; failing that, an
active `vowel_coloring` mode tags the five vowels; otherwise the
character is left untouched. -/

/-- Classification tag of one character: `group` corresponds to the
highlighted group span, `vowel` to the vowel-colored span, `untagged` to
the character being emitted as plain text. -/
inductive Tag where
  | untagged : Tag
  | vowel : Tag
  | group : String → Tag
deriving DecidableEq, Repr

/-- JS object property access `groups[key]` on a string-keyed object,
modelled on an association list in insertion order. -/
def lookupGroup (k : String) : List (String × List Char) → Option (List Char)
  | [] => Option.none
  | (k', v) :: rest => if k' = k then some v else lookupGroup k rest

/-- The `for (const key of activeGroups)` loop of part_000 lines 151–156:
the first active group whose member list contains the (already
lower-cased) character wins; a key missing from the configuration is
skipped (`groups[key]?.includes(lower)` is `undefined`, hence falsy). -/
def findGroup (groups : List (String × List Char)) (lower : Char) :
    List String → Option String
  | [] => Option.none
  | k :: ks =>
    match lookupGroup k groups with
    | some chs => if chs.contains lower then some k else findGroup groups lower ks
    | Option.none => findGroup groups lower ks

def vowelChars : List Char := ['a', 'e', 'i', 'o', 'u']

/-- Per-character classification of part_000 `processChars` lines
147–170: lower-case the character, look for the first matching active
group, otherwise apply vowel coloring when the `vowel_coloring` mode is
active and the lower-cased character is one of `a,e,i,o,u`. -/
def classifyChar (groups : List (String × List Char)) (activeGroups : List String)
    (activeModes : List String) (c : Char) : Tag :=
  let lower := c.toLower
  match findGroup groups lower activeGroups with
  | some k => Tag.group k
  | Option.none =>
    if activeModes.contains "vowel_coloring" && vowelChars.contains lower then
      Tag.vowel
    else
      Tag.untagged

/-- The same loop as written in pop_window.jsx lines 148–153, where the
lookup is `groups[key].includes(lower)` with no optional chaining: a key
absent from the configuration makes the expression throw a TypeError,
modelled as `Except.error ()`. -/
def findGroupPop (groups : List (String × List Char)) (lower : Char) :
    List String → Except Unit (Option String)
  | [] => Except.ok Option.none
  | k :: ks =>
    match lookupGroup k groups with
    | some chs =>
      if chs.contains lower then Except.ok (some k) else findGroupPop groups lower ks
    | Option.none => Except.error ()

/-- `config.confusing_letter_groups` of the fallback configuration
(part_000 lines 58–68, identical in pop_window.jsx and dpref.json's
shape used by content.js), in object insertion order. -/
def defaultGroups : List (String × List Char) :=
  [("mirror_letters1", ['b', 'd']),
   ("mirror_letters2", ['p', 'q']),
   ("similar_shapes1", ['m', 'n']),
   ("similar_shapes2", ['o', 'u']),
   ("similar_shapes3", ['c', 'e']),
   ("thin_vertical1", ['i', 'j']),
   ("thin_vertical2", ['l', 't']),
   ("tail_letters", ['g', 'y']),
   ("similar_numbers", ['6', '9'])]

/-! ## Word annotator

part_000 lines 176–181: with `bold_starts` active and a word longer than
one character, the word is split at `Math.ceil(length / 2)`; the first
half is rendered inside `<b>`, the second half in a plain span; both
halves run through the same `processChars`. -/

/-- One annotated character of the rendered output: its text, its
classification tag, and whether it sits inside the anchor-bold half. -/
structure Run where
  char : Char
  tag : Tag
  bold : Bool
deriving DecidableEq, Repr

/-- `processChars(segment, isBold)` of part_000 lines 146–174 restricted
to the data it attaches to each character: every character of the
segment is classified and carries the half's bold flag. -/
def processChars (groups : List (String × List Char)) (activeGroups : List String)
    (activeModes : List String) (seg : List Char) (isBold : Bool) : List Run :=
  seg.map fun c => ⟨c, classifyChar groups activeGroups activeModes c, isBold⟩

/-- The per-word branch of `processedSampleText` (part_000 lines
176–181): `bold_starts` active and length > 1 splits the word at
`Math.ceil(length / 2)` (which is `(n + 1) / 2` in ℕ) into a bold half
and a plain half; otherwise the whole word is processed un-bolded. -/
def annotateWord (groups : List (String × List Char)) (activeGroups : List String)
    (activeModes : List String) (word : List Char) : List Run :=
  if activeModes.contains "bold_starts" && decide (word.length > 1) then
    let mid := (word.length + 1) / 2
    processChars groups activeGroups activeModes (word.take mid) true ++
      processChars groups activeGroups activeModes (word.drop mid) false
  else
    processChars groups activeGroups activeModes word false

/-! ## Content-script classification

`processPageText` (content.js lines 108–133) builds one regex from the
union of all configured groups' letters (case-insensitive) and replaces
every matching character of a word segment by a group span whose key is
found by iterating `Object.entries(groups)` — configuration insertion
order, not the user's activation order; characters outside the union are
left as plain text, and no vowel rule exists in this pass. -/

/-- The `for (const [key, chars] of Object.entries(groups))` loop of
content.js lines 126–131: first configured group (in insertion order)
whose member list contains the lower-cased character. -/
def contentFindGroup (lower : Char) : List (String × List Char) → Option String
  | [] => Option.none
  | (k, chs) :: rest =>
    if chs.contains lower then some k else contentFindGroup lower rest

/-- Tag a character receives from the content script's regex/replace
pass: the matched character is wrapped in a span for the first
configured group containing its lower-cased form, and a character whose
lower-cased form is in no group is not matched by the regex and stays
plain. -/
def contentTag (groups : List (String × List Char)) (c : Char) : Tag :=
  match contentFindGroup c.toLower groups with
  | some k => Tag.group k
  | Option.none => Tag.untagged

/-! ## Color resolution

content.js lines 8–21 and part_000 lines 10–23 each define a
`COLOR_VALUES` palette (the two differ in several hex values), and every
call site resolves a key with `COLOR_VALUES[key] || <fallback>`. -/

/-- JS property access `COLOR_VALUES[key]` on a string-keyed object. -/
def lookupColor (k : String) : List (String × String) → Option String
  | [] => Option.none
  | (k', v) :: rest => if k' = k then some v else lookupColor k rest

/-- The `COLOR_VALUES` palette of content.js lines 8–21. -/
def COLOR_VALUES_content : List (String × String) :=
  [("soft-cream", "#F5F5DC"), ("off-white", "#FAF9F6"), ("pastel-yellow", "#FEF9E7"),
   ("light-blue", "#EBF5FB"), ("light-peach", "#FDF2E9"), ("muted-green", "#556B2F"),
   ("warm-brown", "#8B4513"), ("soft-blue", "#4682B4"), ("soft-purple", "#9370DB"),
   ("black", "#1A1A1A"), ("dark-blue", "#00008B"), ("dark-brown", "#5D4037")]

/-- The `COLOR_VALUES` palette of part_000 lines 10–23. -/
def COLOR_VALUES_app : List (String × String) :=
  [("soft-cream", "#FEF9E7"), ("off-white", "#FAF9F6"), ("pastel-yellow", "#FFEE8C"),
   ("light-blue", "#EBF5FB"), ("light-peach", "#FDF2E9"), ("black", "#1A1A1A"),
   ("dark-blue", "#00008B"), ("dark-brown", "#5D4037"), ("muted-green", "#2D6A4F"),
   ("warm-brown", "#A44A3F"), ("soft-purple", "#6D597A"), ("soft-blue", "#4E9FD1")]

/-- content.js line 52:
`COLOR_VALUES[prefs.background_color] || prefs.background_color || '#FFFFFF'`
(every palette value is a non-empty string, so a present key is truthy;
an absent key falls back to the raw key itself, then to `'#FFFFFF'` when
the key is the empty string). -/
def resolveBgColor (key : String) : String :=
  match lookupColor key COLOR_VALUES_content with
  | some v => v
  | Option.none => if key = "" then "#FFFFFF" else key

/-- content.js line 53:
`COLOR_VALUES[prefs.text_color] || prefs.text_color || '#1A1A1A'`. -/
def resolveTextColor (key : String) : String :=
  match lookupColor key COLOR_VALUES_content with
  | some v => v
  | Option.none => if key = "" then "#1A1A1A" else key

/-- content.js line 74, the generated per-group stylesheet rule:
`COLOR_VALUES[colorName] || 'inherit'`. -/
def resolveCssGroupColor (key : String) : String :=
  (lookupColor key COLOR_VALUES_content).getD "inherit"

/-- part_000 line 162, highlight color of a matched group span:
`COLOR_VALUES[colorKey] || '#2563eb'`. -/
def resolveGroupColor (key : String) : String :=
  (lookupColor key COLOR_VALUES_app).getD "#2563eb"

/-- part_000 line 141, vowel span color:
`COLOR_VALUES[...vowels] || COLOR_VALUES['soft-blue']`; the fallback
expression evaluates to the fixed value `"#4E9FD1"`. -/
def resolveVowelColor (key : String) : String :=
  (lookupColor key COLOR_VALUES_app).getD "#4E9FD1"

/-! ## Global style generation

content.js lines 63–69 interpolate the numeric preferences directly into
the injected stylesheet (`font-size: ${prefs.font_size}px`, etc.); no
bounds from the configuration are consulted anywhere in the render path
(the `[min,max]` bounds of `FALLBACK_CONFIG` reach only the slider UI's
`min`/`max` attributes). -/

/-- The numeric spacing/size preferences (JS numbers, modelled as ℚ). -/
structure NumericPrefs where
  font_size : ℚ
  line_spacing : ℚ
  letter_spacing : ℚ
  word_spacing : ℚ
deriving DecidableEq, Repr

/-- The numeric values the injected stylesheet of content.js lines 63–69
actually carries for the text elements. -/
structure GlobalTextStyle where
  fontSizePx : ℚ
  lineHeight : ℚ
  letterSpacingEm : ℚ
  wordSpacingEm : ℚ
deriving DecidableEq, Repr

/-- The numeric part of `applyGlobalStyles` (content.js lines 43–82):
each preference value is written into the stylesheet unmodified. -/
def applyGlobalStyles (p : NumericPrefs) : GlobalTextStyle :=
  { fontSizePx := p.font_size
    lineHeight := p.line_spacing
    letterSpacingEm := p.letter_spacing
    wordSpacingEm := p.word_spacing }

/-- Clamping to `[lo, hi]` as spec §7(c) prescribes — stated from the
spec's words for comparison with `applyGlobalStyles`; no such operation
exists in the source. -/
def clampSpec (lo hi v : ℚ) : ℚ := max lo (min hi v)

/-! ## Preference list toggling -/

/-- `toggleList` of part_000 lines 126–132 (identical in pop_window.jsx
lines 123–129): copy the list, remove the first occurrence of the item
if present (`indexOf` / `splice`), otherwise push it at the end. -/
def toggleList (l : List String) (x : String) : List String :=
  if l.contains x then l.erase x else l ++ [x]

lemma map_const_eq_replicate {α β : Type} (l : List α) (b : β) :
    (l.map fun _ => b) = List.replicate l.length b := by
  induction l with
  | nil => rfl
  | cons x xs ih => simp [List.replicate_succ, ih]

lemma processChars_map_bold (groups : List (String × List Char))
    (ags modes : List String) (seg : List Char) (b : Bool) :
    (processChars groups ags modes seg b).map Run.bold = List.replicate seg.length b := by
  unfold processChars
  rw [List.map_map]
  exact map_const_eq_replicate seg b

lemma processChars_map_tag (groups : List (String × List Char))
    (ags modes : List String) (seg : List Char) (b : Bool) :
    (processChars groups ags modes seg b).map Run.tag =
      seg.map (classifyChar groups ags modes) := by
  unfold processChars
  rw [List.map_map]
  rfl

/-- C3: Priority correctness — when a character belongs to two configured
groups `g1` and `g2` and the activation order is `[g2, g1]`, the
classifier returns `group g2`: the first group of the activation order
containing the lower-cased character wins and `g1` is never reached. -/
theorem c3_priority_correct (groups : List (String × List Char)) (g1 g2 : String)
    (l1 l2 : List Char) (c : Char) (modes : List String)
    (h1 : lookupGroup g1 groups = some l1) (hc1 : l1.contains c.toLower = true)
    (h2 : lookupGroup g2 groups = some l2) (hc2 : l2.contains c.toLower = true) :
    classifyChar groups [g2, g1] modes c = Tag.group g2 := by
  have hc2' : c.toLower ∈ l2 := by simpa using hc2
  simp [classifyChar, findGroup, h2, hc2']

theorem c3_witness :
    (lookupGroup "G1" [("G1", ['x']), ("G2", ['x'])] = some ['x'] ∧
      (['x'] : List Char).contains 'x'.toLower = true ∧
      lookupGroup "G2" [("G1", ['x']), ("G2", ['x'])] = some ['x']) ∧
    classifyChar [("G1", ['x']), ("G2", ['x'])] ["G2", "G1"] [] 'x' = Tag.group "G2" :=
  ⟨⟨by decide, by decide, by decide⟩,
    c3_priority_correct [("G1", ['x']), ("G2", ['x'])] "G1" "G2" ['x'] ['x'] 'x' []
      (by decide) (by decide) (by decide) (by decide)⟩

/-- C4: Anchor split boundary — with `bold_starts` active, a word of
length `n > 1` has exactly `ceil(n/2) = (n+1)/2` leading characters
marked anchor-bold and the remaining `n - (n+1)/2` not; a word of length
`n ≤ 1` has no anchor-bold character. -/
theorem c4_anchor_split (groups : List (String × List Char))
    (ags modes : List String) (word : List Char)
    (hb : modes.contains "bold_starts" = true) :
    (annotateWord groups ags modes word).map Run.bold =
      if 1 < word.length then
        List.replicate ((word.length + 1) / 2) true ++
          List.replicate (word.length - (word.length + 1) / 2) false
      else
        List.replicate word.length false := by
  unfold annotateWord
  rw [hb]
  by_cases h : 1 < word.length
  · simp only [Bool.true_and, decide_eq_true h, if_pos, List.map_append,
      processChars_map_bold, List.length_take, List.length_drop, if_pos h]
    have hmin : min ((word.length + 1) / 2) word.length = (word.length + 1) / 2 := by
      omega
    rw [hmin]
  · have hd : decide (word.length > 1) = false := by
      simpa using h
    simp only [Bool.true_and, hd, if_neg, Bool.false_eq_true, not_false_eq_true,
      processChars_map_bold, if_neg h]

theorem c4_witness :
    ((["bold_starts"] : List String).contains "bold_starts" = true) ∧
    (annotateWord defaultGroups [] ["bold_starts"]
        ['r', 'e', 'a', 'd', 'i', 'n', 'g']).map Run.bold =
      (if 1 < (['r', 'e', 'a', 'd', 'i', 'n', 'g'] : List Char).length then
        List.replicate (((['r', 'e', 'a', 'd', 'i', 'n', 'g'] : List Char).length + 1) / 2)
            true ++
          List.replicate ((['r', 'e', 'a', 'd', 'i', 'n', 'g'] : List Char).length -
            ((['r', 'e', 'a', 'd', 'i', 'n', 'g'] : List Char).length + 1) / 2) false
      else
        List.replicate (['r', 'e', 'a', 'd', 'i', 'n', 'g'] : List Char).length false) :=
  ⟨by decide,
    c4_anchor_split defaultGroups [] ["bold_starts"] ['r', 'e', 'a', 'd', 'i', 'n', 'g']
      (by decide)⟩

/-- C5: Vowel/group independence — a matching active group always
produces the group tag; the vowel tag appears exactly when no active
group matched, `vowel_coloring` is among the active modes, and the
lower-cased character is one of `a,e,i,o,u`; and the outcome depends on
the active-mode list only through membership, not through the order of
its flags. -/
theorem c5_vowel_group_independence (groups : List (String × List Char))
    (ags modes : List String) (c : Char) :
    (∀ k, findGroup groups c.toLower ags = some k →
        classifyChar groups ags modes c = Tag.group k) ∧
    (classifyChar groups ags modes c = Tag.vowel ↔
        findGroup groups c.toLower ags = Option.none ∧
        modes.contains "vowel_coloring" = true ∧
        vowelChars.contains c.toLower = true) ∧
    (∀ modes' : List String, (∀ m, m ∈ modes ↔ m ∈ modes') →
        classifyChar groups ags modes c = classifyChar groups ags modes' c) := by
  refine ⟨?_, ?_, ?_⟩
  · intro k hk
    simp [classifyChar, hk]
  · cases hfg : findGroup groups c.toLower ags with
    | some k => simp [classifyChar, hfg]
    | none =>
      by_cases h1 : "vowel_coloring" ∈ modes
      · by_cases h2 : c.toLower ∈ vowelChars
        · simp [classifyChar, hfg, h1, h2]
        · simp [classifyChar, hfg, h1, h2]
      · simp [classifyChar, hfg, h1]
  · intro modes' hmem
    have hcontains : modes.contains "vowel_coloring" = modes'.contains "vowel_coloring" := by
      show List.elem "vowel_coloring" modes = List.elem "vowel_coloring" modes'
      simp only [List.elem_eq_mem]
      exact decide_eq_decide.mpr (hmem _)
    simp only [classifyChar, hcontains]

theorem c5_witness :
    classifyChar defaultGroups ["mirror_letters1"] ["vowel_coloring"] 'b' =
      Tag.group "mirror_letters1" :=
  (c5_vowel_group_independence defaultGroups ["mirror_letters1"]
      ["vowel_coloring"] 'b').1 "mirror_letters1" (by decide)

/-- C6: Deterministic, stateless classification — the tag attached to
each character by the word annotator is exactly the pure per-character
classifier applied to that character, whichever branch (bold split or
not) is taken: the tag depends on nothing but the character, the active
groups in order and the mode flags, so re-running the pass on the same
text reproduces the same tags. -/
theorem c6_classification_pointwise (groups : List (String × List Char))
    (ags modes : List String) (word : List Char) :
    (annotateWord groups ags modes word).map Run.tag =
      word.map (classifyChar groups ags modes) := by
  unfold annotateWord
  by_cases h : modes.contains "bold_starts" && decide (word.length > 1)
  · simp only [h, if_pos, List.map_append, processChars_map_tag]
    rw [← List.map_append, List.take_append_drop]
  · simp only [h, if_neg, Bool.false_eq_true, not_false_eq_true, processChars_map_tag]

lemma findGroup_cons_not_mem (k : String) (chs : List Char)
    (groups : List (String × List Char)) (lower : Char) :
    ∀ ks : List String, k ∉ ks →
      findGroup ((k, chs) :: groups) lower ks = findGroup groups lower ks
  | [], _ => rfl
  | k' :: ks', hk => by
    have hne : k ≠ k' := fun h => hk (h ▸ List.mem_cons_self k' ks')
    have htail : k ∉ ks' := fun h => hk (List.mem_cons_of_mem k' h)
    simp only [findGroup, lookupGroup, if_neg hne,
      findGroup_cons_not_mem k chs groups lower ks' htail]

lemma findGroup_keys (groups : List (String × List Char)) (lower : Char)
    (hnd : (groups.map Prod.fst).Nodup) :
    findGroup groups lower (groups.map Prod.fst) = contentFindGroup lower groups := by
  induction groups with
  | nil => rfl
  | cons p rest ih =>
    obtain ⟨k, chs⟩ := p
    simp only [List.map_cons, List.nodup_cons] at hnd
    obtain ⟨hk, hrest⟩ := hnd
    by_cases hc : lower ∈ chs
    · simp [findGroup, lookupGroup, contentFindGroup, hc]
    · simp [findGroup, lookupGroup, contentFindGroup, hc,
        findGroup_cons_not_mem k chs rest lower (rest.map Prod.fst) hk, ih hrest]

/-- C1 fails on the code: under the shipped default configuration and the
default preferences (`active_letter_groups = ["mirror_letters1"]`,
`active_modes = ["bold_starts"]`), the live preview leaves the character
`p` untagged while the content script's regex/replace pass tags it
`group "mirror_letters2"`, so the two renderer back ends do not produce
the same classification. -/
theorem c1_counterexample :
    classifyChar defaultGroups ["mirror_letters1"] ["bold_starts"] 'p' = Tag.untagged ∧
    contentTag defaultGroups 'p' = Tag.group "mirror_letters2" ∧
    classifyChar defaultGroups ["mirror_letters1"] ["bold_starts"] 'p' ≠
      contentTag defaultGroups 'p' := by
  decide

/-- C1 (amended): the content script classifies against all configured
groups in configuration order and knows no vowel rule, so the two back
ends agree on every character exactly in the special case where the
activation order lists the configured group keys in configuration order
(keys being distinct, as JS object keys are) and vowel coloring is not
active. -/
theorem c1_backends_agree_on_full_order (groups : List (String × List Char))
    (modes : List String) (c : Char)
    (hnd : (groups.map Prod.fst).Nodup)
    (hv : "vowel_coloring" ∉ modes) :
    classifyChar groups (groups.map Prod.fst) modes c = contentTag groups c := by
  simp only [classifyChar, contentTag]
  rw [findGroup_keys groups c.toLower hnd]
  cases contentFindGroup c.toLower groups with
  | some k => rfl
  | none => simp [hv]

theorem c1_witness :
    ((defaultGroups.map Prod.fst).Nodup ∧ "vowel_coloring" ∉ (["bold_starts"] : List String)) ∧
    classifyChar defaultGroups (defaultGroups.map Prod.fst) ["bold_starts"] 'p' =
      contentTag defaultGroups 'p' :=
  ⟨⟨by decide, by decide⟩,
    c1_backends_agree_on_full_order defaultGroups ["bold_starts"] 'p'
      (by decide) (by decide)⟩

/-- C7 fails as stated: the background (and text) color call site of
content.js has no fixed fallback value — an absent key falls back to the
raw key itself, so two different absent keys resolve to two different
values. -/
theorem c7_counterexample :
    lookupColor "unknown-a" COLOR_VALUES_content = Option.none ∧
    lookupColor "unknown-b" COLOR_VALUES_content = Option.none ∧
    resolveBgColor "unknown-a" = "unknown-a" ∧
    resolveBgColor "unknown-b" = "unknown-b" ∧
    resolveBgColor "unknown-a" ≠ resolveBgColor "unknown-b" := by
  decide

/-- C7 (amended): resolution never fails and never yields an empty
value; the group-highlight, vowel and stylesheet call sites return the
fixed fallbacks `"#2563eb"`, `"#4E9FD1"` and `"inherit"` on an absent
key, while the background/text call sites fall back to the raw key
itself (or `"#FFFFFF"` / `"#1A1A1A"` when the key is empty). -/
theorem c7_fallbacks (key : String)
    (habs : lookupColor key COLOR_VALUES_content = Option.none)
    (habs' : lookupColor key COLOR_VALUES_app = Option.none) :
    resolveGroupColor key = "#2563eb" ∧
    resolveVowelColor key = "#4E9FD1" ∧
    resolveCssGroupColor key = "inherit" ∧
    resolveBgColor key = (if key = "" then "#FFFFFF" else key) ∧
    resolveTextColor key = (if key = "" then "#1A1A1A" else key) ∧
    resolveBgColor key ≠ "" ∧
    resolveTextColor key ≠ "" := by
  unfold resolveGroupColor resolveVowelColor resolveCssGroupColor
    resolveBgColor resolveTextColor
  rw [habs, habs']
  refine ⟨rfl, rfl, rfl, rfl, rfl, ?_, ?_⟩ <;>
    · by_cases hk : key = "" <;> simp [hk]

theorem c7_witness :
    (lookupColor "unknown-color" COLOR_VALUES_content = Option.none ∧
      lookupColor "unknown-color" COLOR_VALUES_app = Option.none) ∧
    resolveGroupColor "unknown-color" = "#2563eb" :=
  ⟨⟨by decide, by decide⟩, (c7_fallbacks "unknown-color" (by decide) (by decide)).1⟩

/-- C8: at the failing input — an active-group key absent from the
configuration — the part_000 classifier skips the group as the spec
demands, but pop_window.jsx's variant of the same loop
(`groups[key].includes(lower)`, no optional chaining) throws a
TypeError, modelled as `Except.error ()`, so its whole render fails
instead of degrading gracefully. -/
theorem c8_pop_window_throws :
    findGroupPop defaultGroups 'b'.toLower ["similar_colors"] = Except.error () ∧
    findGroup defaultGroups 'b'.toLower ["similar_colors"] = Option.none ∧
    classifyChar defaultGroups ["similar_colors"] [] 'b' = Tag.untagged :=
  ⟨rfl, by decide, by decide⟩

/-- C9 fails as stated: a stored font size of 999 with configured bounds
[12, 26] is written into the stylesheet as 999, not clamped to 26. -/
theorem c9_counterexample :
    (applyGlobalStyles ⟨999, 3/2, 1/10, 1/5⟩).fontSizePx = 999 ∧
    clampSpec 12 26 999 = 26 ∧
    (applyGlobalStyles ⟨999, 3/2, 1/10, 1/5⟩).fontSizePx ≠ clampSpec 12 26 999 := by
  refine ⟨rfl, ?_, ?_⟩ <;> norm_num [clampSpec, applyGlobalStyles]

/-- C9 (amended): the render path uses every numeric spacing/size
preference exactly as stored — the rendered output is always produced
and carries the raw values; the configured bounds are enforced only by
the slider UI, never by the engine. -/
theorem c9_raw_passthrough (p : NumericPrefs) :
    (applyGlobalStyles p).fontSizePx = p.font_size ∧
    (applyGlobalStyles p).lineHeight = p.line_spacing ∧
    (applyGlobalStyles p).letterSpacingEm = p.letter_spacing ∧
    (applyGlobalStyles p).wordSpacingEm = p.word_spacing :=
  ⟨rfl, rfl, rfl, rfl⟩

/-- C10 fails as stated for lists holding the item twice: toggling `"a"`
out of `["a", "a"]` removes only the first occurrence, so the result
still contains `"a"` although the input did too, refuting the claimed
membership flip. -/
theorem c10_counterexample :
    toggleList ["a", "a"] "a" = ["a"] ∧
    ("a" ∈ (["a", "a"] : List String)) ∧
    ("a" ∈ toggleList ["a", "a"] "a") := by
  decide

/-- C10 (amended): for a list in which the item occurs at most once (the
shape of the preference lists this helper is applied to), the toggle
flips membership, preserves the multiplicity of every other element,
and toggling twice restores exactly the original membership. -/
theorem c10_toggle_props (l : List String) (x : String) (hcount : l.count x ≤ 1) :
    (x ∈ toggleList l x ↔ x ∉ l) ∧
    (∀ y, y ≠ x → (toggleList l x).count y = l.count y) ∧
    (∀ y, y ∈ toggleList (toggleList l x) x ↔ y ∈ l) := by
  by_cases hx : x ∈ l
  · have htog : toggleList l x = l.erase x := by
      simp [toggleList, hx]
    have hc1 : l.count x = 1 :=
      le_antisymm hcount (List.count_pos_iff.mpr hx)
    have hnotmem : x ∉ l.erase x := by
      rw [← List.count_pos_iff, List.count_erase_self, hc1]
      simp
    refine ⟨?_, ?_, ?_⟩
    · rw [htog]
      simp [hnotmem, hx]
    · intro y hy
      rw [htog, List.count_erase_of_ne hy]
    · intro y
      have htog2 : toggleList (l.erase x) x = l.erase x ++ [x] := by
        simp [toggleList, hnotmem]
      rw [htog, htog2, List.mem_append, List.mem_singleton]
      by_cases hyx : y = x
      · subst hyx; simp [hx]
      · simp [hyx, List.mem_erase_of_ne hyx]
  · have htog : toggleList l x = l ++ [x] := by
      simp [toggleList, hx]
    refine ⟨?_, ?_, ?_⟩
    · rw [htog]
      simp [hx]
    · intro y hy
      have h0 : List.count y [x] = 0 := by
        rw [List.count_eq_zero]
        simp [hy]
      rw [htog, List.count_append, h0, Nat.add_zero]
    · intro y
      have htog2 : toggleList (l ++ [x]) x = l := by
        rw [toggleList, if_pos (by simp), List.erase_append_right _ hx]
        simp
      rw [htog, htog2]

theorem c10_witness :
    ((["b", "a"] : List String).count "a" ≤ 1) ∧
    ("a" ∈ toggleList ["b", "a"] "a" ↔ "a" ∉ (["b", "a"] : List String)) :=
  ⟨by decide, (c10_toggle_props ["b", "a"] "a" (by decide)).1⟩

end FocusMate
